import Mathlib

/-
Verification development for the dta (Stata) binary reader in
src/test_files/gendata.go (package datareader, type StataReader).

Conventions of the shallow embedding:
  * Bytes are modelled as `Nat` values < 256; byte buffers as `List Nat`.
  * Go strings produced by `string(partition(buf))` are modelled as the
    corresponding byte lists (`List Nat`).
  * All multi-byte numeric reads are modelled in little-endian byte order
    (the big-endian case is symmetric and none of the verified claims
    depends on the byte order).
  * Machine integers are modelled as `Nat`/`Int` with explicit reductions
    modulo 2^w where Go wraps (uint64 shifts, int64 Duration products).
  * Go `panic` and returned `error` values are both modelled as
    `Except.error`; `map` lookup of an absent key is modelled by an
    association-list lookup returning the Go zero value.
-/

namespace Datareader

/-! ### Byte-level primitives -/

/-- Model of `partition` (gendata.go): everything before the first null
byte; the whole buffer when no null byte occurs. -/
def partition (b : List Nat) : List Nat :=
  b.takeWhile (fun v => v ≠ 0)

/-- Little-endian unsigned read of a whole byte buffer, as in
`binary.Read(rdr.reader, binary.LittleEndian, &x)` for unsigned `x`. -/
def readUIntLE : List Nat → Nat
  | [] => 0
  | c :: rest => c % 256 + 256 * readUIntLE rest

/-- Little-endian encoding of `x` into `w` bytes (the byte image that an
unsigned `w`-byte field with value `x` has on disk). -/
def encodeLE : Nat → Nat → List Nat
  | 0, _ => []
  | w + 1, x => (x % 256) :: encodeLE w (x / 256)

/-- Two's-complement reinterpretation of an unsigned `w`-byte value, as Go
does when `binary.Read` targets a signed intN variable. -/
def toInt2c (w : Nat) (x : Nat) : Int :=
  if x < 2 ^ (8 * w - 1) then (x : Int) else (x : Int) - 2 ^ (8 * w)

/-! ### Missing-value rules (Read, gendata.go lines 778-812) -/

/-- Missing test for a decoded int8 (tag 65530): `x < -127 || x > 100`. -/
def int8_missing (x : Int) : Bool := x < -127 || x > 100

/-- Missing test for a decoded int16 (tag 65529): `x > 32740 || x < -32767`. -/
def int16_missing (x : Int) : Bool := x > 32740 || x < -32767

/-- Missing test for a decoded int32 (tag 65528):
`x > 2147483620 || x < -2147483647`. -/
def int32_missing (x : Int) : Bool := x > 2147483620 || x < -2147483647

/-- Missing test for a decoded float64 (tag 65526), on the exact rational
value of the float: `x > 8.988e307 || x < -8.988e307` (the threshold is
taken at the decimal value of the source literal). -/
def float64_missing (x : ℚ) : Bool := x > 8988 * 10 ^ 304 || x < -(8988 * 10 ^ 304)

/-- Missing test for a decoded float32 (tag 65527), on the exact rational
value of the float: `x > 1.701e38 || x < -1.701e38`. -/
def float32_missing (x : ℚ) : Bool := x > 1701 * 10 ^ 35 || x < -(1701 * 10 ^ 35)

/-! ### Type translator (translate_vartypes, gendata.go lines 459-479) -/

/-- Model of one step of `translate_vartypes`: old-format (version < 117)
one-byte type codes are normalized into the new-format tag space; the Go
`default: panic` branch is an error. -/
def translate_vartype (t : Nat) : Except String Nat :=
  if t ≤ 244 then .ok t
  else if t = 251 then .ok 65530
  else if t = 252 then .ok 65529
  else if t = 253 then .ok 65528
  else if t = 254 then .ok 65527
  else if t = 255 then .ok 65526
  else .error "unknown variable type in translate_vartypes"

/-- Model of `translate_vartypes` over the whole `VarTypes` vector. -/
def translate_vartypes (ts : List Nat) : Except String (List Nat) :=
  ts.mapM translate_vartype

/-! ### IEEE-754 value of a raw float cell

`Read` decodes tags 65526/65527 with `binary.Read` into float64/float32 and
compares them against the missing thresholds.  We keep raw float cells as
their byte image and recover the exact rational value for the comparison;
`none` stands for NaN (every Go comparison on NaN is false), and the two
infinities are mapped to `±2^1100`, which compares to every finite
threshold exactly as the infinities do. -/

/-- Exact rational value of a little-endian 8-byte float64 cell. -/
def f64ToRat (b : List Nat) : Option ℚ :=
  let bits : Nat := readUIntLE b % 2 ^ 64
  let s : Nat := bits / 2 ^ 63
  let e : Nat := bits / 2 ^ 52 % 2 ^ 11
  let m : Nat := bits % 2 ^ 52
  if e = 2047 then
    if m = 0 then some (if s = 1 then -(2 ^ 1100) else 2 ^ 1100) else none
  else
    let mag : ℚ :=
      if e = 0 then (m : ℚ) * (2 : ℚ) ^ (-1074 : ℤ)
      else ((2 ^ 52 + m : Nat) : ℚ) * (2 : ℚ) ^ ((e : ℤ) - 1075)
    some (if s = 1 then -mag else mag)

/-- Exact rational value of a little-endian 4-byte float32 cell. -/
def f32ToRat (b : List Nat) : Option ℚ :=
  let bits : Nat := readUIntLE b % 2 ^ 32
  let s : Nat := bits / 2 ^ 31
  let e : Nat := bits / 2 ^ 23 % 2 ^ 8
  let m : Nat := bits % 2 ^ 23
  if e = 255 then
    if m = 0 then some (if s = 1 then -(2 ^ 1100) else 2 ^ 1100) else none
  else
    let mag : ℚ :=
      if e = 0 then (m : ℚ) * (2 : ℚ) ^ (-149 : ℤ)
      else ((2 ^ 23 + m : Nat) : ℚ) * (2 : ℚ) ^ ((e : ℤ) - 150)
    some (if s = 1 then -mag else mag)

/-! ### Long-string ("strl") dictionary (read_strls, gendata.go 659-704) -/

/-- One GSO record of the strl section: 4-byte `v`, 8-byte `o`, 1-byte
subtype `t`, and the `length` content bytes that follow the record header. -/
structure GsoRecord where
  v : Nat
  o : Nat
  t : Nat
  content : List Nat
deriving DecidableEq

/-- Model of the key packing in `read_strls`:
`ky = uint64(v) | (o << 16)` in 64-bit arithmetic (`v` is a uint32 field,
`o` a uint64 field, and the shift wraps modulo `2^64`). -/
def strl_key (v o : Nat) : Nat :=
  Nat.lor (v % 2 ^ 32) (((o % 2 ^ 64) <<< 16) % 2 ^ 64)

/-- One iteration of the `read_strls` loop: subtype 130 stores the
null-truncated text under the packed key in the `Strls` map, subtype 129
stores the raw bytes in `StrlsBytes`, any other subtype stores nothing.
Go map assignment overwrites, so entries are consed to the front and
`lookup` finds the newest one. -/
def strlStep (ms : List (Nat × List Nat) × List (Nat × List Nat))
    (r : GsoRecord) : List (Nat × List Nat) × List (Nat × List Nat) :=
  let ky := strl_key r.v r.o
  if r.t = 130 then ((ky, partition r.content) :: ms.1, ms.2)
  else if r.t = 129 then (ms.1, (ky, r.content) :: ms.2)
  else ms

/-- Model of `read_strls` over the GSO records of the strl section: the
`Strls` map (first component) is pre-seeded with the empty string under
key 0 before any record is processed, then every record is folded in. -/
def read_strls_go (recs : List GsoRecord) :
    List (Nat × List Nat) × List (Nat × List Nat) :=
  recs.foldl strlStep ([(0, [])], [])

/-- Go map read `rdr.Strls[ptr]`: the stored value, or the zero value
(the empty string) when the key is absent. -/
def strlGet (m : List (Nat × List Nat)) (k : Nat) : List Nat :=
  (m.lookup k).getD []

/-! ### Category labels (Read, gendata.go 807-838) -/

/-- ASCII bytes of `fmt.Sprintf("%v", x)` for a signed integer `x`: the
decimal text of `x`, with a leading minus sign when negative. -/
def intDecimal (x : Int) : List Nat :=
  (toString x).toList.map Char.toNat

/-- Model of the category-label substitution for a decoded byte `x` of a
tag-65530 cell: look up the column's value-label-set name; when the set or
the entry is absent fall back to the decimal text of `x`. -/
def categoryLabel (vls : List (List Nat × List (Int × List Nat)))
    (labname : List Nat) (x : Int) : List Nat :=
  match vls.lookup labname with
  | none => intDecimal x
  | some mp =>
    match mp.lookup x with
    | some s => s
    | none => intDecimal x

/-! ### Per-cell decode (the inner switch of Read, gendata.go 762-840) -/

/-- On-disk width in bytes of one cell of type tag `t` (an unknown tag
reads no bytes: the Go switch has no default case). -/
def cellWidth (t : Nat) : Nat :=
  if t ≤ 2045 then t
  else if t = 32768 then 8
  else if t = 65526 then 8
  else if t = 65527 then 4
  else if t = 65528 then 4
  else if t = 65529 then 2
  else if t = 65530 then 1
  else 0

/-- Recognized type tags (the cases of the two switches in Read). -/
def validTagB (t : Nat) : Bool :=
  if t ≤ 2045 then true
  else if t = 32768 then true
  else if t = 65526 then true
  else if t = 65527 then true
  else if t = 65528 then true
  else if t = 65529 then true
  else if t = 65530 then true
  else false

/-- One decoded column, tagged with the runtime type of the Go slice that
`Read` allocates for it (`data[j]` holds `[]string`, `[]uint64`,
`[]float64`, `[]float32`, `[]int32`, `[]int16`, `[]int8` or
`[]time.Time`; float cells are kept as their raw byte image, times as
nanoseconds since the Unix epoch). -/
inductive Column where
  | strs (xs : List (List Nat))
  | u64s (xs : List Nat)
  | f64s (xs : List (List Nat))
  | f32s (xs : List (List Nat))
  | i32s (xs : List Int)
  | i16s (xs : List Int)
  | i8s (xs : List Int)
  | times (xs : List Int)
deriving DecidableEq

/-- Number of cells in a column. -/
def Column.length : Column → Nat
  | .strs xs => xs.length
  | .u64s xs => xs.length
  | .f64s xs => xs.length
  | .f32s xs => xs.length
  | .i32s xs => xs.length
  | .i16s xs => xs.length
  | .i8s xs => xs.length
  | .times xs => xs.length

/-- Decode one column from its per-row byte chunks, following the per-cell
switch of `Read`; `none` models the nil `data[j]` that an unrecognized tag
leaves behind (which `NewSeries` then rejects). -/
def decodeColumn (insertStrls insertCategoryLabels : Bool)
    (strls : List (Nat × List Nat)) (vls : List (List Nat × List (Int × List Nat)))
    (labname : List Nat) (t : Nat) (chunks : List (List Nat)) : Option Column :=
  if t ≤ 2045 then some (.strs (chunks.map partition))
  else if t = 32768 then
    if insertStrls then some (.strs (chunks.map (fun b => strlGet strls (readUIntLE b))))
    else some (.u64s (chunks.map readUIntLE))
  else if t = 65526 then some (.f64s chunks)
  else if t = 65527 then some (.f32s chunks)
  else if t = 65528 then some (.i32s (chunks.map (fun b => toInt2c 4 (readUIntLE b))))
  else if t = 65529 then some (.i16s (chunks.map (fun b => toInt2c 2 (readUIntLE b))))
  else if t = 65530 then
    if insertCategoryLabels then
      some (.strs (chunks.map (fun b => categoryLabel vls labname (toInt2c 1 (readUIntLE b)))))
    else some (.i8s (chunks.map (fun b => toInt2c 1 (readUIntLE b))))
  else none

/-- Missing flag of one cell, following the per-cell switch of `Read`:
string and strl cells are never missing, numeric cells use the
type-specific threshold tests. -/
def cellMissing (t : Nat) (b : List Nat) : Bool :=
  if t ≤ 2045 then false
  else if t = 32768 then false
  else if t = 65526 then
    match f64ToRat b with
    | none => false
    | some q => float64_missing q
  else if t = 65527 then
    match f32ToRat b with
    | none => false
    | some q => float32_missing q
  else if t = 65528 then int32_missing (toInt2c 4 (readUIntLE b))
  else if t = 65529 then int16_missing (toInt2c 2 (readUIntLE b))
  else if t = 65530 then int8_missing (toInt2c 1 (readUIntLE b))
  else false

/-! ### Date conversion (do_convert_dates, gendata.go 864-890)

Timestamps are modelled as nanoseconds since the Unix epoch
(1970-01-01T00:00:00 UTC), the unit of Go `time.Duration`.  Go computes
`time.Duration(v) * tq` in int64 arithmetic, which wraps modulo `2^64`. -/

/-- Two's-complement wrap of an integer into the int64 range, as Go int64
multiplication overflow behaves. -/
def wrap64 (x : Int) : Int := (x + 2 ^ 63) % 2 ^ 64 - 2 ^ 63

/-- Days from 1970-01-01 to the proleptic-Gregorian civil date y-m-d (the
calendar Go `time.Date(..., time.UTC)` uses). -/
def days_from_civil (y m d : Int) : Int :=
  let yy : Int := if m ≤ 2 then y - 1 else y
  let era : Int := (if 0 ≤ yy then yy else yy - 399) / 400
  let yoe : Int := yy - era * 400
  let mp : Int := if 2 < m then m - 3 else m + 9
  let doy : Int := (153 * mp + 2) / 5 + d - 1
  let doe : Int := yoe * 365 + yoe / 4 - yoe / 100 + doy
  era * 146097 + doe - 719468

/-- Nanoseconds since the Unix epoch of the UTC instant y-m-d h:mi:s. -/
def civilNs (y m d h mi s : Int) : Int :=
  ((days_from_civil y m d * 24 + h) * 3600 + mi * 60 + s) * 1000000000

/-- The Go value `time.Date(1960, 1, 1, 0, 0, 0, 0, time.UTC)`, the Stata
epoch used by `do_convert_dates`, in nanoseconds since the Unix epoch. -/
def epoch1960Ns : Int := civilNs 1960 1 1 0 0 0

/-- Bytes of the format prefix "%td". -/
def tdPrefix : List Nat := [37, 116, 100]

/-- Bytes of the format prefix "%tc". -/
def tcPrefix : List Nat := [37, 116, 99]

/-- Model of `strings.Index(format, p) == 0`: the format starts with `p`. -/
def startsWith (p f : List Nat) : Bool := List.isPrefixOf p f

/-- Date-column test of `do_read_formats` (gendata.go 508-515): a column
is a date column when its format string begins with "%td" or "%tc". -/
def is_date_format (f : List Nat) : Bool :=
  startsWith tdPrefix f || startsWith tcPrefix f

/-- The timestamp `do_convert_dates` computes for one raw int32 value `v`
and time quantum `tq` (in nanoseconds):
`time.Date(1960,1,1,...).Add(time.Duration(v) * tq)`. -/
def goDateNs (tq : Int) (v : Int) : Int := epoch1960Ns + wrap64 (v * tq)

/-- Model of `do_convert_dates`: the column must be the `[]int32` vector a
tag-65528 column decodes to (any other slice type panics); the quantum is
24 hours for a "%td" format and one millisecond for a "%tc" format (any
other format panics). -/
def do_convert_dates (col : Column) (format : List Nat) : Except String Column :=
  match col with
  | .i32s xs =>
    if startsWith tdPrefix format then
      .ok (.times (xs.map (goDateNs 86400000000000)))
    else if startsWith tcPrefix format then
      .ok (.times (xs.map (goDateNs 1000000)))
    else .error "unable to handle format in date vector"
  | _ => .error "unable to handle raw type in date vector"

/-- The date pass of `Read` (gendata.go 843-849) over the per-column
triples (is_date flag, format, decoded column): every flagged column is
converted, a panic anywhere aborts the call. -/
def convert_dates_list : List (Bool × List Nat × Column) → Except String (List Column)
  | [] => .ok []
  | (d, f, c) :: rest => do
    let c2 ← if d then do_convert_dates c f else .ok c
    let rest2 ← convert_dates_list rest
    pure (c2 :: rest2)

/-- Zip of three parallel per-column lists. -/
def zip3 : List α → List β → List γ → List (α × β × γ)
  | a :: as, b :: bs, c :: cs => (a, b, c) :: zip3 as bs cs
  | _, _, _ => []

/-! ### The reader state and the Read call (gendata.go 709-862) -/

/-- The fields of `StataReader` that the row decoder reads or writes.
`dataBytes` is the byte content of the data section (for versions ≥ 117
the bytes starting at file offset `seek_data + 6`; for older versions the
bytes at which the cursor rests after the one-time initialization pass),
and `pos` is the reader cursor as an offset into `dataBytes`. -/
structure Reader where
  formatVersion : Nat
  nvar : Nat
  rowCount : Nat
  varTypes : List Nat
  insertStrls : Bool
  insertCategoryLabels : Bool
  convertDates : Bool
  valueLabelNames : List (List Nat)
  valueLabels : List (List Nat × List (Int × List Nat))
  strls : List (Nat × List Nat)
  formats : List (List Nat)
  isDate : List Bool
  rowsRead : Nat
  dataBytes : List Nat
  pos : Nat
deriving DecidableEq

/-- Split one on-disk row into its per-column byte chunks, starting at
byte offset `pos`; returns the chunks and the advanced cursor.  Reading
past the end of the bytes yields a short chunk (the verified statements
about cell values always supply enough bytes). -/
def chunkCols (bytes : List Nat) (pos : Nat) : List Nat → List (List Nat) × Nat
  | [] => ([], pos)
  | t :: ts =>
    let w := cellWidth t
    let c := (bytes.drop pos).take w
    let r := chunkCols bytes (pos + w) ts
    (c :: r.1, r.2)

/-- Split `n` consecutive on-disk rows into per-column byte chunks. -/
def chunkRows (bytes : List Nat) (ts : List Nat) (pos : Nat) : Nat → List (List (List Nat)) × Nat
  | 0 => ([], pos)
  | n + 1 =>
    let r := chunkCols bytes pos ts
    let rest := chunkRows bytes ts r.2 n
    (r.1 :: rest.1, rest.2)

/-- The chunks of column `j`, gathered across the decoded rows. -/
def colChunks (rws : List (List (List Nat))) (j : Nat) : List (List Nat) :=
  rws.map (fun r => r.getD j [])

/-- The per-column decode of one Read call over the row chunks `rws`
(the column allocation and fill of gendata.go 719-840). -/
def readCols (rdr : Reader) (rws : List (List (List Nat))) : List (Option Column) :=
  (List.range rdr.nvar).map (fun j =>
    decodeColumn rdr.insertStrls rdr.insertCategoryLabels rdr.strls rdr.valueLabels
      (rdr.valueLabelNames.getD j []) (rdr.varTypes.getD j 0) (colChunks rws j))

/-- The per-column missing masks of one Read call over the row chunks. -/
def readMiss (rdr : Reader) (rws : List (List (List Nat))) : List (List Bool) :=
  (List.range rdr.nvar).map (fun j =>
    (colChunks rws j).map (cellMissing (rdr.varTypes.getD j 0)))

/-- Model of `StataReader.Read`.  `rows` is the requested row count, a
negative value meaning all remaining rows.  Mirrors the source:
`nval = RowCount - rows_read`, capped at `rows` when `rows >= 0`; for
format versions ≥ 117 the call first seeks (unconditionally) to the start
of the data section; rows are then decoded in one monotonic pass, the
missing masks are computed alongside, `rows_read` advances once per row,
and the date pass runs over the decoded columns when `ConvertDates` is
set.  A nil column from an unrecognized tag makes `NewSeries` return an
error, modelled by the `validTagB` guard. -/
def goRead (rdr : Reader) (rows : Int) :
    Except String (List Column × List (List Bool) × Reader) :=
  let nval0 : Int := (rdr.rowCount : Int) - (rdr.rowsRead : Int)
  let nvalI : Int := if 0 ≤ rows ∧ rows < nval0 then rows else nval0
  let n : Nat := nvalI.toNat
  let pos0 : Nat := if 117 ≤ rdr.formatVersion then 0 else rdr.pos
  let rws := chunkRows rdr.dataBytes rdr.varTypes pos0 n
  if ¬ rdr.varTypes.all validTagB then .error "unknown data type in NewSeries" else
  match (readCols rdr rws.1).mapM id with
  | none => .error "unknown data type in NewSeries"
  | some cols1 =>
    let rdr2 : Reader := { rdr with rowsRead := rdr.rowsRead + n, pos := rws.2 }
    if rdr.convertDates then
      match convert_dates_list (zip3 rdr.isDate rdr.formats cols1) with
      | .error e => .error e
      | .ok cols2 => .ok (cols2, readMiss rdr rws.1, rdr2)
    else .ok (cols1, readMiss rdr rws.1, rdr2)

/-- The decoded columns of a Read call, when it succeeds. -/
def readData (rdr : Reader) (rows : Int) : Option (List Column) :=
  match goRead rdr rows with
  | .ok (cols, _, _) => some cols
  | .error _ => none

/-- The reader state after a Read call (unchanged when the call fails). -/
def afterRead (rdr : Reader) (rows : Int) : Reader :=
  match goRead rdr rows with
  | .ok (_, _, rdr2) => rdr2
  | .error _ => rdr

/-! ### Version dispatch of the metadata section readers (init, gendata.go
180-227)

Each section reader starts with a switch on `FormatVersion` selecting a
(buffer size, uses seek) pair; an unlisted version hits a `panic` in the
default branch (modelled as an error).  These dispatchers carry exactly
the cases of the source switches, in source order. -/

/-- Version switch of `read_vartypes` (gendata.go 427-440). -/
def read_vartypes_disp (v : Nat) : Except String Unit :=
  if v = 118 then .ok ()
  else if v = 117 then .ok ()
  else if v = 115 then .ok ()
  else if v = 114 then .ok ()
  else .error ("unknown format version " ++ toString v ++ " in read_vartypes")

/-- Version switch of `read_varnames` (gendata.go 530-543). -/
def read_varnames_disp (v : Nat) : Except String (Nat × Bool) :=
  if v = 118 then .ok (129, true)
  else if v = 117 then .ok (129, true)
  else if v = 115 then .ok (33, false)
  else if v = 114 then .ok (33, false)
  else .error ("unknown format version " ++ toString v ++ " in read_varnames")

/-- Version switch of `read_formats` (gendata.go 481-494). -/
def read_formats_disp (v : Nat) : Except String (Nat × Bool) :=
  if v = 118 then .ok (57, true)
  else if v = 117 then .ok (57, true)
  else if v = 115 then .ok (49, false)
  else if v = 114 then .ok (49, false)
  else .error ("unknown format version " ++ toString v ++ " in read_varnames")

/-- Version switch of `read_value_label_names` (gendata.go 557-570).  The
listed old-format cases are 116 and 115 — version 114 is NOT among them
and falls into the panicking default branch. -/
def read_value_label_names_disp (v : Nat) : Except String (Nat × Bool) :=
  if v = 118 then .ok (129, true)
  else if v = 117 then .ok (129, true)
  else if v = 116 then .ok (33, false)
  else if v = 115 then .ok (33, false)
  else .error ("unknown format version " ++ toString v ++ " in read_value_label_names")

/-- Version switch of `read_variable_labels` (gendata.go 584-595): this
switch has no default branch, so an unlisted version is a silent no-op
(`none` = the section is not read). -/
def read_variable_labels_disp (v : Nat) : Option (Nat × Bool) :=
  if v = 118 then some (321, true)
  else if v = 117 then some (321, true)
  else if v = 115 then some (81, false)
  else if v = 114 then some (81, false)
  else none

/-- The version-dispatch skeleton of the one-time initialization pass
`init` (gendata.go 180-227): after the header is parsed, the metadata
section readers run in sequence, and any panicking dispatch aborts the
pass.  (Section contents are data-dependent and play no role in which
switch case runs, so the dispatch skeleton decides whether init survives
each section for a given version.) -/
def init_metadata (v : Nat) : Except String Unit := do
  _ ← read_vartypes_disp v
  _ ← read_varnames_disp v
  _ ← read_formats_disp v
  _ ← read_value_label_names_disp v
  _ ← pure (read_variable_labels_disp v)
  pure ()

/-! ### Spec-side row-count formula and concrete instances -/

/-- The observation count the specification promises a Read call:
`min(requested, row_count - rows_read)` for a non-negative request, all
remaining rows for a negative one.  (Stated from the spec's words, to be
compared with what `goRead` computes.) -/
def readCount (rowCount rowsRead : Nat) (rows : Int) : Nat :=
  if 0 ≤ rows then min rows.toNat (rowCount - rowsRead) else rowCount - rowsRead

/-- Bytes of a plain (non-date) numeric display format. -/
def fmt8 : List Nat := [37, 56, 46, 48, 103]

/-- Data section of a 10-row file with one int16 column holding the
values 0..9 (little-endian). -/
def tenRowBytes : List Nat := (List.range 10).flatMap (fun i => [i, 0])

/-- A freshly initialized version-117 reader over that 10-row file, with
the `NewStataReader` default options. -/
def R117 : Reader :=
  ⟨117, 1, 10, [65529], true, true, true, [[]], [], [(0, [])], [fmt8], [false], 0,
    tenRowBytes, 0⟩

/-- The same reader as a version-115 file (identical data section). -/
def R115 : Reader := { R117 with formatVersion := 115 }

end Datareader

namespace Datareader

/-! ## Helper lemmas -/

theorem encodeLE_length (w x : Nat) : (encodeLE w x).length = w := by
  induction w generalizing x with
  | zero => rfl
  | succ w ih => simp [encodeLE, ih]

theorem readUIntLE_encodeLE (w x : Nat) :
    readUIntLE (encodeLE w x) = x % 256 ^ w := by
  induction w generalizing x with
  | zero => simp [encodeLE, readUIntLE, Nat.mod_one]
  | succ w ih =>
    simp only [encodeLE, readUIntLE, ih]
    rw [pow_succ', Nat.mod_mul]
    omega

theorem readUIntLE_single (b : Nat) (h : b < 256) : readUIntLE [b] = b := by
  simp [readUIntLE, Nat.mod_eq_of_lt h]

theorem decodeColumn_length (isl icl : Bool) (strls vls labname t chunks)
    (c : Column) (h : decodeColumn isl icl strls vls labname t chunks = some c) :
    c.length = chunks.length := by
  unfold decodeColumn at h
  repeat' split at h
  all_goals
    first
      | exact Option.noConfusion h
      | (injection h with h2; subst h2; simp [Column.length])

theorem decodeColumn_isSome (isl icl : Bool) (strls vls labname t chunks)
    (h : validTagB t = true) :
    ∃ c, decodeColumn isl icl strls vls labname t chunks = some c := by
  unfold decodeColumn
  repeat' split
  all_goals try exact ⟨_, rfl⟩
  simp_all [validTagB]

theorem wrap64_eq_self (x : Int) (h1 : -(2 ^ 63) ≤ x) (h2 : x < 2 ^ 63) :
    wrap64 x = x := by
  unfold wrap64
  rw [Int.emod_eq_of_lt (by omega) (by omega)]
  omega

theorem chunkRows_length (bytes ts : List Nat) (pos n : Nat) :
    (chunkRows bytes ts pos n).1.length = n := by
  induction n generalizing pos with
  | zero => rfl
  | succ n ih => simp [chunkRows, ih]

theorem colChunks_length (rws : List (List (List Nat))) (j : Nat) :
    (colChunks rws j).length = rws.length := by
  simp [colChunks]

/-! ## Claims -/

/-- C5: for old-format (version < 117) files the type translator maps the
1-byte codes 251, 252, 253, 254, 255 to 65530, 65529, 65528, 65527, 65526
respectively, leaves every code ≤ 244 unchanged as a string-width tag, and
treats every other code (245 through 250) as a fatal decode error. -/
theorem C5_translate_vartypes_table (t : Nat) :
    (t ≤ 244 → translate_vartype t = .ok t) ∧
    translate_vartype 251 = .ok 65530 ∧
    translate_vartype 252 = .ok 65529 ∧
    translate_vartype 253 = .ok 65528 ∧
    translate_vartype 254 = .ok 65527 ∧
    translate_vartype 255 = .ok 65526 ∧
    (245 ≤ t → t ≤ 250 →
      translate_vartype t = .error "unknown variable type in translate_vartypes") := by
  refine ⟨fun h => ?_, rfl, rfl, rfl, rfl, rfl, fun h1 h2 => ?_⟩
  · unfold translate_vartype
    rw [if_pos h]
  · unfold translate_vartype
    rw [if_neg (by omega), if_neg (by omega), if_neg (by omega), if_neg (by omega),
      if_neg (by omega), if_neg (by omega)]

theorem C5_witness :
    (10 ≤ 244 ∧ translate_vartype 10 = .ok 10) ∧
    (245 ≤ 247 ∧ 247 ≤ 250 ∧
      translate_vartype 247 = .error "unknown variable type in translate_vartypes") :=
  ⟨⟨by decide, (C5_translate_vartypes_table 10).1 (by decide)⟩,
    ⟨by decide, by decide,
      (C5_translate_vartypes_table 247).2.2.2.2.2.2 (by decide) (by decide)⟩⟩

/-- C2: the claim says initialization of a well-formed version-114 file
completes, the value-label-set-names section being simply absent for that
version.  The code disagrees: the version switch of
`read_value_label_names` lists 118, 117, 116 and 115 but not 114, so a
version-114 file — which every earlier section reader accepts — hits the
panicking default branch there and the one-time initialization pass
aborts; versions 115, 117 and 118 sail through. -/
theorem C2_init_panics_on_114 :
    read_vartypes_disp 114 = .ok () ∧
    read_varnames_disp 114 = .ok (33, false) ∧
    read_formats_disp 114 = .ok (49, false) ∧
    read_value_label_names_disp 114 =
      .error "unknown format version 114 in read_value_label_names" ∧
    init_metadata 114 =
      .error "unknown format version 114 in read_value_label_names" ∧
    init_metadata 115 = .ok () ∧
    init_metadata 117 = .ok () ∧
    init_metadata 118 = .ok () :=
  ⟨rfl, rfl, rfl, rfl, rfl, rfl, rfl, rfl⟩

/-- C3 counterexample: the claim says the int16 value exactly at the
missing-value boundary, 32740, is flagged missing.  It is not: the code
flags `x > 32740`, so decoding the cell bytes of 32740 (little-endian
`e4 7f`) yields the value 32740 with a missing flag of false. -/
theorem C3_counterexample :
    decodeColumn true true [(0, [])] [] [] 65529 [[228, 127]] =
      some (.i16s [32740]) ∧
    cellMissing 65529 [228, 127] = false ∧
    int16_missing 32740 = false := by decide

/-- C3 amended: the missing-value comparisons are strict, so for every
integer type the value exactly at the stated boundary is NOT flagged
missing, the first value beyond it is flagged, and values inside the
boundary are not flagged; the float rules use the same strict comparison
against their stated thresholds. -/
theorem C3_missing_boundaries :
    int16_missing 32740 = false ∧ int16_missing 32739 = false ∧
    int16_missing 32741 = true ∧
    int16_missing (-32767) = false ∧ int16_missing (-32768) = true ∧
    int8_missing 100 = false ∧ int8_missing 101 = true ∧
    int8_missing (-127) = false ∧ int8_missing (-128) = true ∧
    int32_missing 2147483620 = false ∧ int32_missing 2147483621 = true ∧
    int32_missing (-2147483647) = false ∧ int32_missing (-2147483648) = true ∧
    float64_missing (8988 * 10 ^ 304) = false ∧
    float64_missing (8989 * 10 ^ 304) = true ∧
    float64_missing (-(8989 * 10 ^ 304)) = true ∧
    float32_missing (1701 * 10 ^ 35) = false ∧
    float32_missing (1702 * 10 ^ 35) = true ∧
    cellMissing 65529 [228, 127] = false ∧
    cellMissing 65529 [229, 127] = true := by
  refine ⟨by decide, by decide, by decide, by decide, by decide, by decide, by decide,
    by decide, by decide, by decide, by decide, by decide, by decide, ?_, ?_, ?_, ?_, ?_,
    by decide, by decide⟩
  · simp only [float64_missing, Bool.or_eq_false_iff, decide_eq_false_iff_not]
    constructor <;> norm_num
  · simp only [float64_missing, Bool.or_eq_true, decide_eq_true_eq]
    left
    norm_num
  · simp only [float64_missing, Bool.or_eq_true, decide_eq_true_eq]
    right
    norm_num
  · simp only [float32_missing, Bool.or_eq_false_iff, decide_eq_false_iff_not]
    constructor <;> norm_num
  · simp only [float32_missing, Bool.or_eq_true, decide_eq_true_eq]
    left
    norm_num

/-- C9 counterexample: the claim says every raw value of a `%td` column is
interpreted as a whole-day offset from the 1960 epoch.  For the raw int32
value 2147483647 the 64-bit nanosecond product wraps, so the computed
instant is not `epoch + v days`. -/
theorem C9_counterexample :
    goDateNs 86400000000000 2147483647 ≠
      epoch1960Ns + 2147483647 * 86400000000000 := by decide

/-- C9 amended: date conversion interprets a raw value as an offset from
epoch 1960-01-01T00:00:00 UTC — in milliseconds for a `%tc` format (exact
for every int32 value) and in whole days for a `%td` format provided the
day offset stays within ±106751 (beyond which the 64-bit nanosecond
duration product overflows); raw 0 and 1 under `%td` give 1960-01-01 and
1960-01-02, and 1000 under `%tc` gives 1960-01-01T00:00:01 UTC. -/
theorem C9_date_conversion (v : Int)
    (h1 : -2147483648 ≤ v) (h2 : v < 2147483648) :
    do_convert_dates (.i32s [0, 1]) (tdPrefix ++ [88, 88, 88, 88]) =
      .ok (.times [civilNs 1960 1 1 0 0 0, civilNs 1960 1 2 0 0 0]) ∧
    do_convert_dates (.i32s [1000]) (tcPrefix ++ [88, 88, 88, 88]) =
      .ok (.times [civilNs 1960 1 1 0 0 1]) ∧
    goDateNs 1000000 v = epoch1960Ns + v * 1000000 ∧
    (-106751 ≤ v → v ≤ 106751 →
      goDateNs 86400000000000 v = epoch1960Ns + v * 86400000000000) := by
  refine ⟨by rfl, by rfl, ?_, fun hl hr => ?_⟩
  · unfold goDateNs
    rw [wrap64_eq_self _ (by omega) (by omega)]
  · unfold goDateNs
    rw [wrap64_eq_self _ (by omega) (by omega)]

theorem C9_witness :
    (-2147483648 ≤ (106751 : Int)) ∧ ((106751 : Int) < 2147483648) ∧
    goDateNs 86400000000000 106751 =
      epoch1960Ns + 106751 * 86400000000000 :=
  ⟨by decide, by decide,
    (C9_date_conversion 106751 (by decide) (by decide)).2.2.2 (by decide) (by decide)⟩

theorem strl_foldl_lookup (recs : List GsoRecord) (ptr : Nat)
    (ms : List (Nat × List Nat) × List (Nat × List Nat))
    (habs : ∀ r ∈ recs, r.t = 130 → strl_key r.v r.o ≠ ptr) :
    (recs.foldl strlStep ms).1.lookup ptr = ms.1.lookup ptr := by
  induction recs generalizing ms with
  | nil => rfl
  | cons r rest ih =>
    rw [List.foldl_cons, ih _ (fun r2 h2 => habs r2 (List.mem_cons_of_mem _ h2))]
    unfold strlStep
    split
    · next h130 =>
      have hne : ptr ≠ strl_key r.v r.o :=
        Ne.symm (habs r (List.mem_cons_self _ _) h130)
      have hbeq : (ptr == strl_key r.v r.o) = false := by
        simp [beq_iff_eq, hne]
      simp [List.lookup, hbeq]
    · split <;> rfl

/-- C7: with strl substitution enabled, a tag-32768 cell whose 8-byte key
is stored by no GSO record resolves to the empty string and never to an
error, and the strl dictionary is pre-seeded with an empty-string entry
under key 0 before any GSO record is read. -/
theorem C7_unresolved_strl (recs : List GsoRecord) (ptr : Nat)
    (hp : ptr < 2 ^ 64)
    (habs : ∀ r ∈ recs, r.t = 130 → strl_key r.v r.o ≠ ptr) :
    strlGet (read_strls_go recs).1 ptr = [] ∧
    decodeColumn true true (read_strls_go recs).1 [] [] 32768
      [encodeLE 8 ptr] = some (.strs [[]]) ∧
    (read_strls_go []).1 = [(0, [])] := by
  have hlook : (read_strls_go recs).1.lookup ptr =
      ([(0, [])] : List (Nat × List Nat)).lookup ptr :=
    strl_foldl_lookup recs ptr _ habs
  have hget : strlGet (read_strls_go recs).1 ptr = [] := by
    rw [strlGet, hlook]
    by_cases h0 : ptr = 0
    · subst h0
      rfl
    · have hbeq : (ptr == (0 : Nat)) = false := by simp [beq_iff_eq, h0]
      simp [List.lookup, hbeq]
  have henc : readUIntLE (encodeLE 8 ptr) = ptr := by
    rw [readUIntLE_encodeLE, show (256 : Nat) ^ 8 = 2 ^ 64 by norm_num]
    exact Nat.mod_eq_of_lt hp
  refine ⟨hget, ?_, rfl⟩
  simp [decodeColumn, henc, hget]

theorem C7_witness :
    ((42 : Nat) < 2 ^ 64) ∧
    (∀ r ∈ [GsoRecord.mk 1 1 130 [104]], r.t = 130 → strl_key r.v r.o ≠ 42) ∧
    strlGet (read_strls_go [GsoRecord.mk 1 1 130 [104]]).1 42 = [] :=
  ⟨by decide, by decide,
    (C7_unresolved_strl [GsoRecord.mk 1 1 130 [104]] 42 (by decide) (by decide)).1⟩

/-- C6: a GSO record with vertex field `v` and offset field `o` is stored
under the packed 64-bit key `v | (o << 16)`; `v = 7, o = 3` packs to key
196615; and with strl substitution enabled a tag-32768 row cell whose raw
8 bytes encode that key resolves to exactly the string stored under it. -/
theorem C6_strl_key_packing (v o : Nat) (content : List Nat)
    (hv : v < 2 ^ 32) (ho : o < 2 ^ 64) :
    strl_key 7 3 = 196615 ∧
    (read_strls_go [GsoRecord.mk v o 130 content]).1 =
      [(strl_key v o, partition content), (0, [])] ∧
    decodeColumn true true (read_strls_go [GsoRecord.mk v o 130 content]).1 [] [] 32768
      [encodeLE 8 (strl_key v o)] = some (.strs [partition content]) ∧
    decodeColumn true true
      (read_strls_go [GsoRecord.mk 7 3 130 [104, 105, 0, 106]]).1 [] [] 32768
      [[7, 0, 3, 0, 0, 0, 0, 0]] = some (.strs [[104, 105]]) := by
  have hstore : (read_strls_go [GsoRecord.mk v o 130 content]).1 =
      [(strl_key v o, partition content), (0, [])] := by
    simp [read_strls_go, strlStep]
  have hkey : strl_key v o < 2 ^ 64 := by
    unfold strl_key
    exact Nat.or_lt_two_pow (lt_of_lt_of_le (Nat.mod_lt _ (by norm_num)) (by norm_num))
      (Nat.mod_lt _ (by norm_num))
  have henc : readUIntLE (encodeLE 8 (strl_key v o)) = strl_key v o := by
    rw [readUIntLE_encodeLE, show (256 : Nat) ^ 8 = 2 ^ 64 by norm_num]
    exact Nat.mod_eq_of_lt hkey
  refine ⟨by decide, hstore, ?_, by decide⟩
  simp [decodeColumn, henc, hstore, strlGet, List.lookup]

theorem C6_witness :
    ((7 : Nat) < 2 ^ 32) ∧ ((3 : Nat) < 2 ^ 64) ∧
    decodeColumn true true
      (read_strls_go [GsoRecord.mk 7 3 130 [104, 105]]).1 [] [] 32768
      [encodeLE 8 (strl_key 7 3)] = some (.strs [[104, 105]]) := by
  refine ⟨by decide, by decide, ?_⟩
  have h := (C6_strl_key_packing 7 3 [104, 105] (by decide) (by decide)).2.2.1
  simpa [partition] using h

/-- C8: with category-label substitution enabled, a tag-65530 (byte) cell
whose column has no matching value-label set, or whose code has no entry
in that set, decodes to the code's decimal string (code 5 gives "5") and
never to an error; when a matching entry exists the cell decodes to that
entry's label. -/
theorem C8_category_label_fallback (isl : Bool) (strls : List (Nat × List Nat))
    (vls : List (List Nat × List (Int × List Nat))) (labname : List Nat)
    (b : Nat) (hb : b < 256) :
    (vls.lookup labname = none →
      decodeColumn isl true strls vls labname 65530 [[b]] =
        some (.strs [intDecimal (toInt2c 1 b)])) ∧
    (∀ mp, vls.lookup labname = some mp → mp.lookup (toInt2c 1 b) = none →
      decodeColumn isl true strls vls labname 65530 [[b]] =
        some (.strs [intDecimal (toInt2c 1 b)])) ∧
    (∀ mp s, vls.lookup labname = some mp → mp.lookup (toInt2c 1 b) = some s →
      decodeColumn isl true strls vls labname 65530 [[b]] = some (.strs [s])) ∧
    intDecimal 5 = [53] ∧
    decodeColumn isl true strls [] labname 65530 [[5]] =
      some (.strs [[53]]) := by
  have hdec : ∀ (vls2 : List (List Nat × List (Int × List Nat))) (b2 : Nat),
      b2 < 256 →
      decodeColumn isl true strls vls2 labname 65530 [[b2]] =
        some (.strs [categoryLabel vls2 labname (toInt2c 1 b2)]) := by
    intro vls2 b2 hb2
    simp [decodeColumn, readUIntLE_single b2 hb2]
  refine ⟨fun h => ?_, fun mp h hmp => ?_, fun mp s h hmp => ?_, by decide, ?_⟩
  · simp [hdec vls b hb, categoryLabel, h]
  · simp [hdec vls b hb, categoryLabel, h, hmp]
  · simp [hdec vls b hb, categoryLabel, h, hmp]
  · rw [hdec [] 5 (by norm_num)]
    simp [categoryLabel]
    decide

theorem C8_witness :
    ((5 : Nat) < 256) ∧
    (([(([97] : List Nat), [((1 : Int), ([111] : List Nat))])]).lookup
      ([98] : List Nat) = none) ∧
    decodeColumn true true [] [([97], [(1, [111])])] [98] 65530 [[5]] =
      some (.strs [intDecimal (toInt2c 1 5)]) :=
  ⟨by decide, by decide,
    (C8_category_label_fallback true [] [([97], [(1, [111])])] [98] 5
      (by decide)).1 (by decide)⟩

theorem do_convert_dates_not_i32 (col : Column) (f : List Nat)
    (h : ∀ xs, col ≠ Column.i32s xs) :
    do_convert_dates col f = .error "unable to handle raw type in date vector" := by
  cases col
  case i32s xs => exact absurd rfl (h xs)
  all_goals rfl

/-- C10: with date conversion enabled, any column flagged as a date column
(format beginning with %td or %tc) whose decoded in-memory representation
is not a 32-bit-integer vector makes the date pass of Read fail with a
fatal error; the pass does not skip such columns. -/
theorem C10_date_pass_no_skip (pre post : List (Bool × List Nat × Column))
    (fmt : List Nat) (col : Column)
    (hfmt : is_date_format fmt = true)
    (hcol : ∀ xs, col ≠ Column.i32s xs) :
    ∃ e, convert_dates_list (pre ++ (true, fmt, col) :: post) = .error e := by
  induction pre with
  | nil =>
    refine ⟨"unable to handle raw type in date vector", ?_⟩
    simp [convert_dates_list, do_convert_dates_not_i32 col fmt hcol, Bind.bind, Except.bind]
  | cons e pre ih =>
    obtain ⟨err, herr⟩ := ih
    obtain ⟨d, f, c⟩ := e
    cases d with
    | false =>
      exact ⟨err, by simp [convert_dates_list, herr, Bind.bind, Except.bind]⟩
    | true =>
      cases hs : do_convert_dates c f with
      | error e2 =>
        exact ⟨e2, by simp [convert_dates_list, hs, Bind.bind, Except.bind]⟩
      | ok c2 =>
        exact ⟨err, by simp [convert_dates_list, hs, herr, Bind.bind, Except.bind]⟩

theorem C10_witness :
    is_date_format tdPrefix = true ∧
    (∃ e, convert_dates_list [(true, tdPrefix, Column.strs [])] = .error e) :=
  ⟨by decide,
    C10_date_pass_no_skip [] [] tdPrefix (Column.strs []) (by decide)
      (fun xs h => Column.noConfusion h)⟩

theorem readCount_toNat (rc rr : Nat) (rows : Int) (h : rr ≤ rc) :
    (if 0 ≤ rows ∧ rows < (rc : Int) - (rr : Int) then rows
      else (rc : Int) - (rr : Int)).toNat = readCount rc rr rows := by
  unfold readCount
  by_cases h0 : 0 ≤ rows
  · by_cases h1 : rows < (rc : Int) - (rr : Int)
    · rw [if_pos ⟨h0, h1⟩, if_pos h0]
      omega
    · rw [if_neg (fun hc => h1 hc.2), if_pos h0]
      omega
  · rw [if_neg (fun hc => h0 hc.1), if_neg h0]
    omega

theorem readCount_le (rc rr : Nat) (rows : Int) :
    readCount rc rr rows ≤ rc - rr := by
  unfold readCount
  split <;> omega

theorem mapM_id_some (l : List (Option Column)) (h : ∀ o ∈ l, ∃ c, o = some c) :
    ∃ l2, l.mapM id = some l2 := by
  induction l with
  | nil => exact ⟨[], rfl⟩
  | cons o rest ih =>
    obtain ⟨l2, hl2⟩ := ih (fun o2 ho2 => h o2 (List.mem_cons_of_mem _ ho2))
    obtain ⟨c, rfl⟩ := h o (List.mem_cons_self _ _)
    refine ⟨c :: l2, ?_⟩
    rw [List.mapM_cons, hl2]
    rfl

theorem mapM_id_eq (l : List (Option Column)) (l2 : List Column)
    (h : l.mapM id = some l2) :
    l2.length = l.length ∧ ∀ j : Nat, l[j]? = (l2[j]?).map some := by
  induction l generalizing l2 with
  | nil =>
    simp only [List.mapM_nil, pure, Option.some.injEq] at h
    subst h
    simp
  | cons o rest ih =>
    rw [List.mapM_cons] at h
    cases o with
    | none => simp [Bind.bind] at h
    | some c =>
      cases hrest : rest.mapM id with
      | none => rw [hrest] at h; simp [Bind.bind] at h
      | some cs =>
        rw [hrest] at h
        have h2 : some (c :: cs) = some l2 := h
        injection h2 with h2
        subst h2
        obtain ⟨hlen, hidx⟩ := ih cs hrest
        refine ⟨by simp [hlen], fun j => ?_⟩
        cases j with
        | zero => simp
        | succ j => simpa using hidx j

theorem do_convert_dates_i32_ok (xs : List Int) (f : List Nat)
    (hf : is_date_format f = true) :
    ∃ ys : List Int, do_convert_dates (.i32s xs) f = .ok (.times ys) ∧
      ys.length = xs.length := by
  by_cases htd : startsWith tdPrefix f = true
  · exact ⟨xs.map (goDateNs 86400000000000), by simp [do_convert_dates, htd], by simp⟩
  · have htc : startsWith tcPrefix f = true := by
      rcases (Bool.or_eq_true _ _).mp (by simpa [is_date_format] using hf) with h | h
      · exact absurd h htd
      · exact h
    exact ⟨xs.map (goDateNs 1000000), by simp [do_convert_dates, htd, htc], by simp⟩

theorem convert_dates_list_ok (l : List (Bool × List Nat × Column))
    (h : ∀ e ∈ l, e.1 = true →
      is_date_format e.2.1 = true ∧ ∃ xs, e.2.2 = Column.i32s xs) :
    ∃ cs, convert_dates_list l = .ok cs ∧ cs.length = l.length ∧
      ∀ c ∈ cs, ∃ e ∈ l, Column.length c = Column.length e.2.2 := by
  induction l with
  | nil => exact ⟨[], rfl, rfl, fun c hc => absurd hc (List.not_mem_nil c)⟩
  | cons e rest ih =>
    obtain ⟨cs, hcs, hlen, hmem⟩ :=
      ih (fun e2 he2 h2 => h e2 (List.mem_cons_of_mem _ he2) h2)
    obtain ⟨d, f, c⟩ := e
    cases d with
    | false =>
      refine ⟨c :: cs, ?_, by simp [hlen], ?_⟩
      · simp [convert_dates_list, hcs, Bind.bind, Except.bind, pure, Except.pure]
      · intro c2 hc2
        rcases List.mem_cons.mp hc2 with rfl | hc2
        · exact ⟨(false, f, c2), List.mem_cons_self _ _, rfl⟩
        · obtain ⟨e2, he2, hlen2⟩ := hmem c2 hc2
          exact ⟨e2, List.mem_cons_of_mem _ he2, hlen2⟩
    | true =>
      obtain ⟨hf, xs, hxs⟩ := h (true, f, c) (List.mem_cons_self _ _) rfl
      subst hxs
      obtain ⟨ys, hok, hyslen⟩ := do_convert_dates_i32_ok xs f hf
      refine ⟨Column.times ys :: cs, ?_, by simp [hlen], ?_⟩
      · simp [convert_dates_list, hok, hcs, Bind.bind, Except.bind, pure, Except.pure]
      · intro c2 hc2
        rcases List.mem_cons.mp hc2 with rfl | hc2
        · exact ⟨(true, f, Column.i32s xs), List.mem_cons_self _ _,
            by simp [Column.length, hyslen]⟩
        · obtain ⟨e2, he2, hlen2⟩ := hmem c2 hc2
          exact ⟨e2, List.mem_cons_of_mem _ he2, hlen2⟩

theorem mem_zip3 {α β γ : Type} {e : α × β × γ} :
    ∀ {as : List α} {bs : List β} {cs : List γ}, e ∈ zip3 as bs cs →
      ∃ j : Nat, as[j]? = some e.1 ∧ bs[j]? = some e.2.1 ∧ cs[j]? = some e.2.2 := by
  intro as
  induction as with
  | nil => intro bs cs h; cases bs <;> cases cs <;> simp [zip3] at h
  | cons a as ih =>
    intro bs cs h
    cases bs with
    | nil => cases cs <;> simp [zip3] at h
    | cons b bs =>
      cases cs with
      | nil => simp [zip3] at h
      | cons c cs =>
        rcases List.mem_cons.mp h with rfl | h2
        · exact ⟨0, by simp, by simp, by simp⟩
        · obtain ⟨j, h1, h2, h3⟩ := ih h2
          exact ⟨j + 1, by simpa using h1, by simpa using h2, by simpa using h3⟩

theorem zip3_length {α β γ : Type} :
    ∀ (as : List α) (bs : List β) (cs : List γ),
      (zip3 as bs cs).length = min as.length (min bs.length cs.length) := by
  intro as
  induction as with
  | nil => intro bs cs; cases bs <;> cases cs <;> simp [zip3]
  | cons a as ih =>
    intro bs cs
    cases bs with
    | nil => simp [zip3]
    | cons b bs =>
      cases cs with
      | nil => simp [zip3]
      | cons c cs =>
        simp only [zip3, List.length_cons, ih]
        omega

theorem decodeColumn_i32 (isl icl : Bool) (strls vls labname chunks) :
    decodeColumn isl icl strls vls labname 65528 chunks =
      some (.i32s (chunks.map (fun b => toInt2c 4 (readUIntLE b)))) := by
  rfl

theorem getElem?_some_lt {α : Type} (l : List α) (j : Nat) (a : α)
    (h : l[j]? = some a) : j < l.length := by
  by_contra hge
  rw [List.getElem?_eq_none (le_of_not_lt hge)] at h
  exact Option.noConfusion h

/-- C4: a Read call with requested count `rows` on a well-formed,
fully initialized reader decodes exactly `min(rows, row_count -
rows_read)` observations when `rows` is non-negative and all
`row_count - rows_read` remaining ones when `rows` is negative; every
returned column and every missing mask has exactly that length, and
`rows_read` advances by exactly that count, never exceeding the row
count. -/
theorem C4_read_counts (rdr : Reader) (rows : Int)
    (hrr : rdr.rowsRead ≤ rdr.rowCount)
    (hlen : rdr.varTypes.length = rdr.nvar)
    (hflen : rdr.formats.length = rdr.nvar)
    (hdates : rdr.isDate = rdr.formats.map is_date_format)
    (hvalid : rdr.varTypes.all validTagB = true)
    (hdate32 : ∀ j : Nat, j < rdr.nvar → rdr.isDate.getD j false = true →
      rdr.varTypes.getD j 0 = 65528) :
    ∃ cols miss rdr2,
      goRead rdr rows = .ok (cols, miss, rdr2) ∧
      cols.length = rdr.nvar ∧ miss.length = rdr.nvar ∧
      (∀ c ∈ cols, c.length = readCount rdr.rowCount rdr.rowsRead rows) ∧
      (∀ m ∈ miss, m.length = readCount rdr.rowCount rdr.rowsRead rows) ∧
      rdr2.rowsRead = rdr.rowsRead + readCount rdr.rowCount rdr.rowsRead rows ∧
      rdr2.rowsRead ≤ rdr.rowCount := by
  have hN := readCount_toNat rdr.rowCount rdr.rowsRead rows hrr
  have hNle := readCount_le rdr.rowCount rdr.rowsRead rows
  simp only [goRead]
  rw [hN, if_neg (not_not_intro hvalid)]
  -- the decoded row chunks of this call
  have hvalid2 : ∀ t ∈ rdr.varTypes, validTagB t = true := List.all_eq_true.mp hvalid
  have htag : ∀ j : Nat, j < rdr.nvar → validTagB (rdr.varTypes.getD j 0) = true := by
    intro j hj
    have hjlt : j < rdr.varTypes.length := by omega
    have hg : rdr.varTypes.getD j 0 = rdr.varTypes[j] := by
      rw [List.getD_eq_getElem?_getD, List.getElem?_eq_getElem hjlt]
      rfl
    rw [hg]
    exact hvalid2 _ (List.getElem_mem hjlt)
  set RWS := chunkRows rdr.dataBytes rdr.varTypes
      (if 117 ≤ rdr.formatVersion then 0 else rdr.pos)
      (readCount rdr.rowCount rdr.rowsRead rows) with hRWS
  have hrwslen : RWS.1.length = readCount rdr.rowCount rdr.rowsRead rows := by
    rw [hRWS]
    exact chunkRows_length _ _ _ _
  -- the decoded columns
  have hsome : ∀ o ∈ readCols rdr RWS.1, ∃ c, o = some c := by
    intro o ho
    obtain ⟨j, hj, rfl⟩ := List.mem_map.mp ho
    exact decodeColumn_isSome _ _ _ _ _ _ _ (htag j (List.mem_range.mp hj))
  obtain ⟨cols1, hcols1⟩ := mapM_id_some _ hsome
  obtain ⟨hc1len, hc1idx⟩ := mapM_id_eq _ _ hcols1
  have hreadColsLen : (readCols rdr RWS.1).length = rdr.nvar := by
    simp [readCols]
  have hcols1len : cols1.length = rdr.nvar := by rw [hc1len, hreadColsLen]
  have hdecAt : ∀ (j : Nat) (c : Column), cols1[j]? = some c →
      decodeColumn rdr.insertStrls rdr.insertCategoryLabels rdr.strls rdr.valueLabels
        (rdr.valueLabelNames.getD j []) (rdr.varTypes.getD j 0) (colChunks RWS.1 j) =
        some c := by
    intro j c hjc
    have hjn : j < rdr.nvar := by
      have := getElem?_some_lt cols1 j c hjc
      omega
    have hrc : (readCols rdr RWS.1)[j]? =
        some (decodeColumn rdr.insertStrls rdr.insertCategoryLabels rdr.strls
          rdr.valueLabels (rdr.valueLabelNames.getD j []) (rdr.varTypes.getD j 0)
          (colChunks RWS.1 j)) := by
      simp [readCols, List.getElem?_map, List.getElem?_range hjn]
    have hidx := hc1idx j
    rw [hjc, hrc] at hidx
    have hidx2 : some (decodeColumn rdr.insertStrls rdr.insertCategoryLabels rdr.strls
        rdr.valueLabels (rdr.valueLabelNames.getD j []) (rdr.varTypes.getD j 0)
        (colChunks RWS.1 j)) = some (some c) := hidx
    injection hidx2 with hidx2
  have hcolLen : ∀ c ∈ cols1, Column.length c =
      readCount rdr.rowCount rdr.rowsRead rows := by
    intro c hc
    obtain ⟨j, hj⟩ := List.mem_iff_getElem?.mp hc
    have hdc := decodeColumn_length _ _ _ _ _ _ _ _ (hdecAt j c hj)
    rw [hdc, colChunks_length, hrwslen]
  have hmissLen : (readMiss rdr RWS.1).length = rdr.nvar := by simp [readMiss]
  have hmissMem : ∀ m ∈ readMiss rdr RWS.1,
      m.length = readCount rdr.rowCount rdr.rowsRead rows := by
    intro m hm
    obtain ⟨j, hj, rfl⟩ := List.mem_map.mp hm
    rw [List.length_map, colChunks_length, hrwslen]
  simp only [hcols1]
  cases hcd : rdr.convertDates with
  | false =>
    simp only [Bool.false_eq_true, if_false]
    refine ⟨cols1, readMiss rdr RWS.1, _, rfl, hcols1len, hmissLen, hcolLen, hmissMem,
      rfl, ?_⟩
    simp only []
    omega
  | true =>
    -- every flagged entry of the date pass is an int32 column with a date format
    have hzip : ∀ e ∈ zip3 rdr.isDate rdr.formats cols1, e.1 = true →
        is_date_format e.2.1 = true ∧ ∃ xs, e.2.2 = Column.i32s xs := by
      intro e he hflag
      obtain ⟨j, h1, h2, h3⟩ := mem_zip3 he
      have hjd : j < rdr.isDate.length := getElem?_some_lt _ _ _ h1
      have hdlen : rdr.isDate.length = rdr.nvar := by
        rw [hdates, List.length_map, hflen]
      have hjn : j < rdr.nvar := by omega
      constructor
      · have hmapped : rdr.isDate[j]? = some (is_date_format e.2.1) := by
          rw [hdates, List.getElem?_map, h2]
          rfl
        rw [h1, hflag] at hmapped
        injection hmapped with hmapped
        exact hmapped.symm
      · have hflag2 : rdr.isDate.getD j false = true := by
          rw [List.getD_eq_getElem?_getD, h1, hflag]
          rfl
        have ht := hdate32 j hjn hflag2
        have hat := hdecAt j e.2.2 h3
        rw [ht, decodeColumn_i32] at hat
        injection hat with hat
        exact ⟨_, hat.symm⟩
    obtain ⟨cs2, hcs2, hcs2len, hcs2mem⟩ := convert_dates_list_ok _ hzip
    simp only [hcd, if_true, hcs2]
    refine ⟨cs2, readMiss rdr RWS.1, _, rfl, ?_, hmissLen, ?_, hmissMem, rfl, ?_⟩
    · rw [hcs2len, zip3_length]
      rw [hdates, List.length_map, hflen, hcols1len]
      omega
    · intro c hc
      obtain ⟨e, he, hlen2⟩ := hcs2mem c hc
      obtain ⟨j, _, _, h3⟩ := mem_zip3 he
      have hmem2 : e.2.2 ∈ cols1 := List.getElem?_mem h3
      rw [hlen2, hcolLen e.2.2 hmem2]
    · simp only []
      omega

/-- C1: the claim says two Read calls of 3 then -1 rows on a 10-row file
return the data of rows 0..2 and then rows 3..9, for every supported
version.  For version 117 (and 118) the code instead re-seeks to the start
of the data section on every call, so the second call returns the data of
file rows 0..6 — duplicating rows 0..2 and losing rows 7..9 — while the
version-115 reader over the same data returns the claimed rows; a third
call returns zero rows without error in both cases. -/
theorem C1_seek_reread_bug :
    readData R117 3 = some [Column.i16s [0, 1, 2]] ∧
    readData (afterRead R117 3) (-1) = some [Column.i16s [0, 1, 2, 3, 4, 5, 6]] ∧
    readData (afterRead R117 3) (-1) ≠ some [Column.i16s [3, 4, 5, 6, 7, 8, 9]] ∧
    readData (afterRead (afterRead R117 3) (-1)) (-1) = some [Column.i16s []] ∧
    readData R115 3 = some [Column.i16s [0, 1, 2]] ∧
    readData (afterRead R115 3) (-1) = some [Column.i16s [3, 4, 5, 6, 7, 8, 9]] ∧
    readData (afterRead (afterRead R115 3) (-1)) (-1) = some [Column.i16s []] := by
  decide

theorem C4_witness :
    (R115.rowsRead ≤ R115.rowCount) ∧
    (R115.varTypes.length = R115.nvar) ∧
    (R115.formats.length = R115.nvar) ∧
    (R115.isDate = R115.formats.map is_date_format) ∧
    (R115.varTypes.all validTagB = true) ∧
    (∀ j : Nat, j < R115.nvar → R115.isDate.getD j false = true →
      R115.varTypes.getD j 0 = 65528) ∧
    (∃ cols miss rdr2,
      goRead R115 3 = .ok (cols, miss, rdr2) ∧
      cols.length = R115.nvar ∧ miss.length = R115.nvar ∧
      (∀ c ∈ cols, c.length = readCount R115.rowCount R115.rowsRead 3) ∧
      (∀ m ∈ miss, m.length = readCount R115.rowCount R115.rowsRead 3) ∧
      rdr2.rowsRead = R115.rowsRead + readCount R115.rowCount R115.rowsRead 3 ∧
      rdr2.rowsRead ≤ R115.rowCount) :=
  ⟨by decide, by decide, by decide, by decide, by decide, by decide,
    C4_read_counts R115 3 (by decide) (by decide) (by decide) (by decide) (by decide)
      (by decide)⟩

end Datareader
